import Mathlib

/-!
Verification of the gist-sync reconciler (`src/dev/sync_gists.py`).

Shallow embedding: the remote HTTP service is an external collaborator
modelled as a `Server` value (a state-threading pair of `get` and `mutate`
operations whose responses are either scripted or given by the honest
GitHub-like model `honestServer`).  All observable side effects of the
script — printed progress lines, remote API calls, mapping-file writes,
ignore-file appends — are recorded as an `Event` trace.  Termination is a
`Status`: `normal` completion, `exited code` (`sys.exit`), or `raised s`
(an uncaught `HTTPError` with status `s`).

Notes on fidelity:

* File contents are compared as whole strings.  The source compares
  `splitlines(keepends=True)` lists; since `''.join` of such a list
  reconstructs the string exactly, list equality coincides with string
  equality of the two contents.
* Glob matching of `.gistignore` patterns (`Path.match`) is externalised
  as a parameter `pm : String → String → Bool` (pattern, then file name);
  for a literal pattern with no wildcard characters `Path.match` is plain
  name equality.
* The interactive keystroke echo of `get_single_key` is not recorded as
  an event; the prompt itself is (`Event.promptFile`).
* `difflib.unified_diff` output is nonempty exactly when the two line
  sequences differ, so the `if diff_text:` guard in `show_diff` is taken
  exactly when the contents differ; the displayed diff is recorded as
  `Event.printDiff path remote local` (remote is the "from" side,
  local the "to" side, as in the source's `fromfile`/`tofile` arguments).
-/

/-- A local candidate file: its base name (the reconciliation key, also
used when printing the path), its current content, and whether it is a
regular file (`Path.is_file`). -/
structure SFile where
  name : String
  content : String
  isFile : Bool
deriving DecidableEq, Repr

/-- Observable side effects of one run, in program order. -/
inductive Event where
  | warnNotFile (path : String)
  | printSkipping (path : String)
  | printNoChanges (path : String)
  | printDiff (path remoteContent localContent : String)
  | printFetchError (path : String)
  | wouldUpdate (path : String)
  | wouldCreate (path : String)
  | printUpdating (path : String)
  | printCreating (path : String)
  | callGet (gistId : String)
  | callPatch (gistId fileName content : String)
  | callPost (fileName content : String)
  | printDone (url : String)
  | printFailed
  | printPermissionHelp
  | saveMapping (fileName gistId url : String)
  | promptFile (path : String)
  | printSkippedKeep (path : String)
  | appendIgnore (pattern : String)
  | printAddedIgnore (pattern : String)
  | printQuitting
deriving DecidableEq, Repr

/-- Response to a GET of a single gist: either the gist's (sole) file
content together with the gist id and html url, or a
`requests.exceptions.RequestException`. -/
inductive GetResp where
  | ok (content gistId url : String)
  | err
deriving DecidableEq, Repr

/-- A mutation call: PATCH of an existing gist or POST of a new one. -/
inductive MCall where
  | patch (gistId fileName content : String)
  | post (fileName content : String)
deriving DecidableEq, Repr

/-- Response to a mutation: success (gist id and html url as returned by
the API) or an `HTTPError` carrying the HTTP status code. -/
inductive MutResp where
  | ok (gistId url : String)
  | httpErr (status : Nat)
deriving DecidableEq, Repr

/-- How a run ends: normal completion, `sys.exit code`, an uncaught
exception carrying an HTTP status, or `stuck` (the model ran out of
scripted keystrokes where the script would block reading stdin). -/
inductive Status where
  | normal
  | exited (code : Nat)
  | raised (status : Nat)
  | stuck
deriving DecidableEq, Repr

/-- The remote service as an external collaborator: state-threading
`get` (fetch one gist) and `mutate` (create or update) operations. -/
structure Server (σ : Type) where
  get : σ → String → GetResp × σ
  mutate : σ → MCall → MutResp × σ

/-- Result of a self-contained piece of the run: its event trace, the
server state afterwards, and how it ended. -/
structure RunResult (σ : Type) where
  events : List Event
  world : σ
  status : Status
deriving DecidableEq, Repr

/-- Result of `show_diff`: trace, server state, and whether the local
file differs from the gist (the function's boolean return value). -/
structure DiffResult (σ : Type) where
  events : List Event
  world : σ
  changed : Bool
deriving DecidableEq, Repr

/-- Result of processing one file inside the reconciliation loop:
trace, server state, remaining keystrokes, status, and whether the loop
continues (`false` exactly when the operator chose quit). -/
structure StepResult (σ : Type) where
  events : List Event
  world : σ
  keys : List Char
  status : Status
  cont : Bool
deriving DecidableEq, Repr

/-- First-match association lookup on a keyed list (Python dict read). -/
def alookup {β : Type} : List (String × β) → String → Option β
  | [], _ => none
  | (a, b) :: t, k => if a = k then some b else alookup t k

/-- Python dict assignment `d[k] = v`: replace an existing entry in
place, else append (insertion order preserved). -/
def aset {β : Type} (l : List (String × β)) (k : String) (v : β) :
    List (String × β) :=
  if l.any (fun p => p.1 = k) then
    l.map (fun p => if p.1 = k then (k, v) else p)
  else
    l ++ [(k, v)]

/-- `should_sync_file`: a file may be uploaded as a new gist iff its
name matches no excluded pattern (`pm` is the glob matcher). -/
def should_sync_file (pm : String → String → Bool) (name : String)
    (excluded : List String) : Bool :=
  !(excluded.any fun p => pm p name)

/-- `sync_to_gist`: create or update the gist for a file.  Under
`dry_run` only the intended action is reported.  Otherwise the mutation
call is issued; on success the result url is printed and the mapping
saved; on `HTTPError` 403 the process exits with code 1 after printing
remediation guidance; any other `HTTPError` is re-raised. -/
def sync_to_gist {σ : Type} (server : Server σ) (w : σ) (f : SFile)
    (gist_id : Option String) (dry_run : Bool) : RunResult σ :=
  if dry_run then
    match gist_id with
    | some _ => ⟨[Event.wouldUpdate f.name], w, Status.normal⟩
    | none => ⟨[Event.wouldCreate f.name], w, Status.normal⟩
  else
    match gist_id with
    | some gid =>
      let p := server.mutate w (MCall.patch gid f.name f.content)
      match p.1 with
      | MutResp.ok rid url =>
        ⟨[Event.printUpdating f.name, Event.callPatch gid f.name f.content,
          Event.printDone url, Event.saveMapping f.name rid url],
         p.2, Status.normal⟩
      | MutResp.httpErr s =>
        if s = 403 then
          ⟨[Event.printUpdating f.name, Event.callPatch gid f.name f.content,
            Event.printFailed, Event.printPermissionHelp],
           p.2, Status.exited 1⟩
        else
          ⟨[Event.printUpdating f.name, Event.callPatch gid f.name f.content,
            Event.printFailed], p.2, Status.raised s⟩
    | none =>
      let p := server.mutate w (MCall.post f.name f.content)
      match p.1 with
      | MutResp.ok rid url =>
        ⟨[Event.printCreating f.name, Event.callPost f.name f.content,
          Event.printDone url, Event.saveMapping f.name rid url],
         p.2, Status.normal⟩
      | MutResp.httpErr s =>
        if s = 403 then
          ⟨[Event.printCreating f.name, Event.callPost f.name f.content,
            Event.printFailed, Event.printPermissionHelp],
           p.2, Status.exited 1⟩
        else
          ⟨[Event.printCreating f.name, Event.callPost f.name f.content,
            Event.printFailed], p.2, Status.raised s⟩

/-- `show_diff`: fetch the gist; on success save the mapping (before the
comparison, as in the source) and compare contents, reporting either
"no changes" or a unified diff; on a request error report it and treat
the file as changed. -/
def show_diff {σ : Type} (server : Server σ) (w : σ) (f : SFile)
    (gist_id : String) : DiffResult σ :=
  let g := server.get w gist_id
  match g.1 with
  | GetResp.ok content rid url =>
    if f.content = content then
      ⟨[Event.callGet gist_id, Event.saveMapping f.name rid url,
        Event.printNoChanges f.name], g.2, false⟩
    else
      ⟨[Event.callGet gist_id, Event.saveMapping f.name rid url,
        Event.printDiff f.name content f.content], g.2, true⟩
  | GetResp.err =>
    ⟨[Event.callGet gist_id, Event.printFetchError f.name], g.2, true⟩

/-- `interactive_sync`: prompt for a file with no gist, looping until a
recognised key is read.  `cont = false` means quit.  Keystrokes are
consumed from `keys`; an exhausted list leaves the model `stuck` (the
script would block forever reading stdin). -/
def interactive_sync {σ : Type} (server : Server σ) (w : σ)
    (keys : List Char) (f : SFile) (dry_run : Bool) : StepResult σ :=
  match keys with
  | [] => ⟨[], w, [], Status.stuck, false⟩
  | k :: rest =>
    if k = 'q' then
      ⟨[Event.promptFile f.name], w, rest, Status.normal, false⟩
    else if k = 's' then
      ⟨[Event.promptFile f.name, Event.printSkippedKeep f.name], w, rest,
       Status.normal, true⟩
    else if k = 'x' then
      ⟨[Event.promptFile f.name, Event.appendIgnore f.name,
        Event.printAddedIgnore f.name], w, rest, Status.normal, true⟩
    else if k = 'u' then
      let c := sync_to_gist server w f none dry_run
      ⟨Event.promptFile f.name :: c.events, c.world, rest, c.status, true⟩
    else
      let r := interactive_sync server w rest f dry_run
      ⟨Event.promptFile f.name :: r.events, r.world, r.keys, r.status, r.cont⟩

/-- Body of the `sync_files_to_gists` loop for one file. -/
def sync_one {σ : Type} (server : Server σ) (w : σ) (keys : List Char)
    (existing : String → Option String) (excluded : List String)
    (pm : String → String → Bool)
    (create_new dry_run interactive show_diffs : Bool)
    (f : SFile) : StepResult σ :=
  if f.isFile then
    match existing f.name with
    | some gid =>
      if show_diffs then
        let d := show_diff server w f gid
        if d.changed then
          let c := sync_to_gist server d.world f (some gid) dry_run
          ⟨d.events ++ c.events, c.world, keys, c.status, true⟩
        else
          ⟨d.events, d.world, keys, Status.normal, true⟩
      else
        let c := sync_to_gist server w f (some gid) dry_run
        ⟨c.events, c.world, keys, c.status, true⟩
    | none =>
      if create_new then
        if should_sync_file pm f.name excluded then
          if interactive then
            interactive_sync server w keys f dry_run
          else
            let c := sync_to_gist server w f none dry_run
            ⟨c.events, c.world, keys, c.status, true⟩
        else
          ⟨[], w, keys, Status.normal, true⟩
      else
        ⟨[Event.printSkipping f.name], w, keys, Status.normal, true⟩
  else
    ⟨[Event.warnNotFile f.name], w, keys, Status.normal, true⟩

/-- The `for file_path in files:` loop: process files in order, stopping
early on `sys.exit`/`raise` or on an interactive quit (which prints
"Quitting..." and breaks, leaving the run's status normal). -/
def sync_loop {σ : Type} (server : Server σ)
    (existing : String → Option String) (excluded : List String)
    (pm : String → String → Bool)
    (create_new dry_run interactive show_diffs : Bool) :
    List SFile → σ → List Char → RunResult σ
  | [], w, _ => ⟨[], w, Status.normal⟩
  | f :: rest, w, keys =>
    let s := sync_one server w keys existing excluded pm create_new dry_run
      interactive show_diffs f
    match s.status with
    | Status.normal =>
      if s.cont then
        let r := sync_loop server existing excluded pm create_new dry_run
          interactive show_diffs rest s.world s.keys
        ⟨s.events ++ r.events, r.world, r.status⟩
      else
        ⟨s.events ++ [Event.printQuitting], s.world, Status.normal⟩
    | st => ⟨s.events, s.world, st⟩

/-- `sync_files_to_gists`: the ignore patterns are loaded only when
`create_new` is set (line 234 of the source), then the per-file loop
runs. -/
def sync_files_to_gists {σ : Type} (server : Server σ) (w : σ)
    (keys : List Char) (existing : String → Option String)
    (excl : List String) (pm : String → String → Bool)
    (create_new dry_run interactive show_diffs : Bool)
    (files : List SFile) : RunResult σ :=
  sync_loop server existing (if create_new then excl else []) pm create_new
    dry_run interactive show_diffs files w keys

/-- The merge in `main`: `{**api_gists, **tracked_gists}` followed by
`.get name` — the locally tracked entry wins on a shared key, the API
listing is the fallback. -/
def mergeGists (api tracked : List (String × String)) :
    String → Option String :=
  fun name =>
    match alookup tracked name with
    | some i => some i
    | none => alookup api name

/-- The config-format version tag (`CONFIG_VERSION`). -/
def CONFIG_VERSION : Nat := 1

/-- One entry of the `files` table of `.gists.toml`. -/
structure GistEntry where
  gist_id : String
  url : String
deriving DecidableEq, Repr

/-- The parsed `.gists.toml` document: an optional `version` key, the
`metadata.last_sync` timestamp, and the `files` table in insertion
order. -/
structure MappingData where
  version : Option Nat
  last_sync : Option String
  files : List (String × GistEntry)
deriving DecidableEq, Repr

/-- `load_gist_mappings`: file name → gist id; a missing config file
yields the empty mapping. -/
def load_gist_mappings (data : Option MappingData) :
    List (String × String) :=
  match data with
  | none => []
  | some m => m.files.map (fun p => (p.1, p.2.gist_id))

/-- `save_gist_mapping`: rewrite `.gists.toml` with `last_sync` set to
`now`, the entry for `name` set to the given id and url, every other
entry kept, and the version tag carried over (defaulting to
`CONFIG_VERSION` when absent, as `data.get('version', CONFIG_VERSION)`
does). -/
def save_gist_mapping (prior : Option MappingData)
    (name gid gurl now : String) : MappingData :=
  let data := prior.getD ⟨some CONFIG_VERSION, none, []⟩
  ⟨some (data.version.getD CONFIG_VERSION), some now,
   aset data.files name ⟨gid, gurl⟩⟩

/-- A stored gist in the honest remote model: content and html url. -/
structure Gist where
  content : String
  url : String
deriving DecidableEq, Repr

/-- Honest remote state: a fresh-id counter and the stored gists keyed
by id. -/
structure GState where
  counter : Nat
  gists : List (String × Gist)
deriving DecidableEq, Repr

/-- The honest GitHub-like server: GET returns the stored content (or a
request error for an unknown id), PATCH replaces the content of an
existing gist, POST stores a new gist under a fresh id. -/
def honestServer : Server GState :=
  ⟨fun w gid =>
    match alookup w.gists gid with
    | some g => (GetResp.ok g.content gid g.url, w)
    | none => (GetResp.err, w),
   fun w c =>
    match c with
    | MCall.patch gid _ content =>
      match alookup w.gists gid with
      | some g =>
        (MutResp.ok gid g.url,
         ⟨w.counter, aset w.gists gid ⟨content, g.url⟩⟩)
      | none => (MutResp.httpErr 404, w)
    | MCall.post _ content =>
      let gid := "g" ++ toString w.counter
      let url := "https://gist.github.com/" ++ gid
      (MutResp.ok gid url,
       ⟨w.counter + 1, w.gists ++ [(gid, ⟨content, url⟩)]⟩)⟩

/-- Content stored at a gist id, if any. -/
def gcontent (w : GState) (gid : String) : Option String :=
  (alookup w.gists gid).map Gist.content

/-- Does an event represent a remote API call? -/
def isRemoteCall : Event → Bool
  | Event.callGet _ => true
  | Event.callPatch _ _ _ => true
  | Event.callPost _ _ => true
  | _ => false

/-- Is this event an update (PATCH) call? -/
def isPatch : Event → Bool
  | Event.callPatch _ _ _ => true
  | _ => false

/-- Is this event a create (POST) call? -/
def isPost : Event → Bool
  | Event.callPost _ _ => true
  | _ => false

/-! ### Association-list lemmas -/

theorem alookup_append {β : Type} (l1 l2 : List (String × β)) (k : String) :
    alookup (l1 ++ l2) k
      = match alookup l1 k with
        | some v => some v
        | none => alookup l2 k := by
  induction l1 with
  | nil => simp [alookup]
  | cons p t ih =>
    by_cases h : p.1 = k
    · simp [alookup, h]
    · simp [alookup, h, ih]

theorem alookup_of_any_false {β : Type} (l : List (String × β)) (k : String)
    (h : l.any (fun p => p.1 = k) = false) : alookup l k = none := by
  induction l with
  | nil => rfl
  | cons p t ih =>
    simp only [List.any_cons, Bool.or_eq_false_iff] at h
    have hp : ¬ p.1 = k := by
      intro hc
      simp [hc] at h
    simp [alookup, hp, ih h.2]

theorem alookup_map_subst_self {β : Type} (l : List (String × β))
    (k : String) (v : β) (h : l.any (fun p => p.1 = k) = true) :
    alookup (l.map (fun p => if p.1 = k then (k, v) else p)) k = some v := by
  induction l with
  | nil => simp at h
  | cons p t ih =>
    rw [List.map_cons]
    by_cases hp : p.1 = k
    · rw [if_pos hp]
      simp [alookup]
    · rw [if_neg hp]
      simp only [List.any_cons, Bool.or_eq_true] at h
      rcases h with h | h
      · simp [hp] at h
      · simp [alookup, hp, ih h]

theorem alookup_map_subst_other {β : Type} (l : List (String × β))
    (k : String) (v : β) (j : String) (hj : j ≠ k) :
    alookup (l.map (fun p => if p.1 = k then (k, v) else p)) j
      = alookup l j := by
  induction l with
  | nil => rfl
  | cons p t ih =>
    rw [List.map_cons]
    by_cases hp : p.1 = k
    · rw [if_pos hp]
      have hk : ¬ (k = j) := fun hc => hj hc.symm
      have hpj : ¬ (p.1 = j) := by
        rw [hp]
        exact hk
      simp [alookup, hk, hpj, ih]
    · rw [if_neg hp]
      by_cases hq : p.1 = j
      · simp [alookup, hq]
      · simp [alookup, hq, ih]

theorem alookup_aset_self {β : Type} (l : List (String × β)) (k : String)
    (v : β) : alookup (aset l k v) k = some v := by
  unfold aset
  by_cases h : l.any (fun p => p.1 = k) = true
  · simp [h, alookup_map_subst_self l k v h]
  · have h' : l.any (fun p => p.1 = k) = false := by
      revert h
      cases l.any (fun p => p.1 = k) <;> simp
    simp [h', alookup_append, alookup_of_any_false l k h', alookup]

theorem alookup_aset_other {β : Type} (l : List (String × β)) (k : String)
    (v : β) (j : String) (hj : j ≠ k) :
    alookup (aset l k v) j = alookup l j := by
  unfold aset
  by_cases h : l.any (fun p => p.1 = k) = true
  · simp [h, alookup_map_subst_other l k v j hj]
  · have h' : l.any (fun p => p.1 = k) = false := by
      revert h
      cases l.any (fun p => p.1 = k) <;> simp
    have hk : ¬ (k = j) := fun hc => hj hc.symm
    simp only [h', Bool.false_eq_true, if_false, alookup_append, alookup,
      if_neg hk]
    cases alookup l j <;> rfl

theorem alookup_aset_isSome {β : Type} (l : List (String × β)) (k : String)
    (v w0 : β) (hk : alookup l k = some w0) (j : String) :
    (alookup (aset l k v) j).isSome = (alookup l j).isSome := by
  by_cases hj : j = k
  · subst hj
    simp [alookup_aset_self, hk]
  · simp [alookup_aset_other l k v j hj]

theorem alookup_aset_eq_of_lookup {β : Type} (l : List (String × β))
    (k : String) (v : β) (hk : alookup l k = some v) (j : String) :
    alookup (aset l k v) j = alookup l j := by
  by_cases hj : j = k
  · subst hj
    simp [alookup_aset_self, hk]
  · simp [alookup_aset_other l k v j hj]

/-! ### Claim theorems -/

/-- C1: the merged map of known remote resources is
`{**api_gists, **tracked_gists}`: a key present in the local tracked
mapping resolves to the tracked id (local wins), a key absent from it
falls back to the API listing; and in the concrete scenario of local
mapping `a.py ↦ X` with an empty remote listing, reconciling `a.py`
issues an update (PATCH) against id `X`. -/
theorem claim1_merge_precedence :
    (∀ (api tracked : List (String × String)) (k i : String),
      alookup tracked k = some i → mergeGists api tracked k = some i)
    ∧ (∀ (api tracked : List (String × String)) (k : String),
      alookup tracked k = none → mergeGists api tracked k = alookup api k)
    ∧ Event.callPatch "X" "a.py" "new" ∈
        (sync_files_to_gists honestServer ⟨0, [("X", ⟨"old", "u"⟩)]⟩ []
          (mergeGists []
            (load_gist_mappings (some ⟨some 1, none, [("a.py", ⟨"X", "u"⟩)]⟩)))
          [] (fun _ _ => false) false false false false
          [⟨"a.py", "new", true⟩]).events := by
  refine ⟨?_, ?_, ?_⟩
  · intro api tracked k i h
    simp [mergeGists, h]
  · intro api tracked k h
    simp [mergeGists, h]
  · decide

/-- C1 witness: the two conditional parts applied at concrete inputs. -/
theorem claim1_merge_precedence_witness :
    mergeGists [("a.py", "A")] [("a.py", "X")] "a.py" = some "X"
    ∧ mergeGists [("b.py", "B")] [("a.py", "X")] "b.py" = some "B" :=
  ⟨claim1_merge_precedence.1 [("a.py", "A")] [("a.py", "X")] "a.py" "X"
     (by decide),
   claim1_merge_precedence.2.1 [("b.py", "B")] [("a.py", "X")] "b.py"
     (by decide)⟩

/-- C2: a file mapped to an existing gist, processed with `show_diffs`
set, whose local content equals the fetched remote content, causes no
PATCH (nor any other mutation) and reports "no changes". -/
theorem claim2_no_changes {σ : Type} (server : Server σ) (w w2 : σ)
    (keys : List Char) (f : SFile) (existing : String → Option String)
    (excl : List String) (pm : String → String → Bool)
    (cn dr inter : Bool) (gid rid url : String)
    (hf : f.isFile = true) (hm : existing f.name = some gid)
    (hget : server.get w gid = (GetResp.ok f.content rid url, w2)) :
    (∀ e ∈ (sync_files_to_gists server w keys existing excl pm cn dr inter
        true [f]).events, isPatch e = false ∧ isPost e = false)
    ∧ Event.printNoChanges f.name ∈
        (sync_files_to_gists server w keys existing excl pm cn dr inter
          true [f]).events := by
  simp [sync_files_to_gists, sync_loop, sync_one, show_diff, hf, hm, hget,
    isPatch, isPost]

def c2map : String → Option String :=
  fun n => if n = "a.py" then some "X" else none

def c2w : GState := ⟨0, [("X", ⟨"c", "u"⟩)]⟩

def c2f : SFile := ⟨"a.py", "c", true⟩

/-- C2 witness: an identical-content file under diff mode at concrete
inputs. -/
theorem claim2_no_changes_witness :
    c2map c2f.name = some "X"
    ∧ ((∀ e ∈ (sync_files_to_gists honestServer c2w [] c2map []
          (fun _ _ => false) false false false true [c2f]).events,
        isPatch e = false ∧ isPost e = false)
      ∧ Event.printNoChanges c2f.name ∈
          (sync_files_to_gists honestServer c2w [] c2map []
            (fun _ _ => false) false false false true [c2f]).events) :=
  ⟨by decide,
   claim2_no_changes honestServer c2w c2w [] c2f c2map []
     (fun _ _ => false) false false false "X" "X" "u" (by decide)
     (by decide) (by decide)⟩

/-- C3: a file absent from the merged map, with `create_new` false, is
reported skipped and causes no remote call at all; the server state is
untouched. -/
theorem claim3_skip_no_gist {σ : Type} (server : Server σ) (w : σ)
    (keys : List Char) (f : SFile) (existing : String → Option String)
    (excl : List String) (pm : String → String → Bool) (dr inter sd : Bool)
    (hf : f.isFile = true) (hm : existing f.name = none) :
    sync_files_to_gists server w keys existing excl pm false dr inter sd [f]
      = ⟨[Event.printSkipping f.name], w, Status.normal⟩
    ∧ ∀ e ∈ (sync_files_to_gists server w keys existing excl pm false dr
        inter sd [f]).events, isRemoteCall e = false := by
  simp [sync_files_to_gists, sync_loop, sync_one, hf, hm, isRemoteCall]

/-- C3 witness: a concrete unmapped file with `create_new` false. -/
theorem claim3_skip_no_gist_witness :
    ((fun _ => (none : Option String)) c2f.name = none)
    ∧ (sync_files_to_gists honestServer c2w [] (fun _ => none) []
          (fun _ _ => false) false false false false [c2f]
        = ⟨[Event.printSkipping c2f.name], c2w, Status.normal⟩
      ∧ ∀ e ∈ (sync_files_to_gists honestServer c2w [] (fun _ => none) []
          (fun _ _ => false) false false false false [c2f]).events,
          isRemoteCall e = false) :=
  ⟨rfl,
   claim3_skip_no_gist honestServer c2w [] c2f (fun _ => none) []
     (fun _ _ => false) false false false (by decide) rfl⟩

/-- C4 counterexample: a file with no mapping, `create_new` true, whose
name matches an ignore pattern, produces an *empty* event trace — in
particular no "skipped, no existing remote resource" report is emitted,
contradicting the claim's reporting requirement (the `should_sync_file`
false branch in `sync_files_to_gists` falls through silently). -/
theorem claim4_counterexample :
    (sync_files_to_gists honestServer ⟨0, []⟩ [] (fun _ => none) ["a.tmp"]
      (fun p n => p = n) true false false false
      [⟨"a.tmp", "x", true⟩]).events = [] := by
  decide

/-- C4 (amended): a file with no mapping, `create_new` true and a name
matching an ignore pattern is silently skipped — no create call and no
report at all; and ignore patterns are never consulted for files that
do have a mapping (the run's outcome on a mapped file is independent of
the pattern set and of the matcher). -/
theorem claim4_ignore_gates_creation {σ : Type} (server : Server σ)
    (w : σ) (keys : List Char) (dr inter sd : Bool) :
    (∀ (f : SFile) (existing : String → Option String)
      (excl : List String) (pm : String → String → Bool),
      f.isFile = true → existing f.name = none →
      excl.any (fun p => pm p f.name) = true →
      sync_files_to_gists server w keys existing excl pm true dr inter sd [f]
        = ⟨[], w, Status.normal⟩)
    ∧ (∀ (f : SFile) (existing : String → Option String)
      (excl1 : List String) (pm1 : String → String → Bool)
      (excl2 : List String) (pm2 : String → String → Bool)
      (cn : Bool) (gid : String),
      existing f.name = some gid →
      sync_files_to_gists server w keys existing excl1 pm1 cn dr inter sd [f]
        = sync_files_to_gists server w keys existing excl2 pm2 cn dr inter
            sd [f]) := by
  constructor
  · intro f existing excl pm hf hm hmatch
    simp [sync_files_to_gists, sync_loop, sync_one, hf, hm,
      should_sync_file, hmatch]
  · intro f existing excl1 pm1 excl2 pm2 cn gid hm
    simp [sync_files_to_gists, sync_loop, sync_one, hm]

/-- C4 witness: the amended statement applied at concrete inputs. -/
theorem claim4_ignore_gates_creation_witness :
    (["a.tmp"].any (fun p => (fun q n => q = n) p "a.tmp") = true)
    ∧ (sync_files_to_gists honestServer (⟨0, []⟩ : GState) []
        (fun _ => none) ["a.tmp"] (fun p n => p = n) true false false false
        [⟨"a.tmp", "x", true⟩]
      = ⟨[], ⟨0, []⟩, Status.normal⟩)
    ∧ (sync_files_to_gists honestServer c2w [] c2map ["a.py"]
        (fun p n => p = n) true false false false [c2f]
      = sync_files_to_gists honestServer c2w [] c2map []
          (fun _ _ => false) true false false false [c2f]) :=
  ⟨by decide,
   (claim4_ignore_gates_creation honestServer ⟨0, []⟩ [] false false
       false).1 ⟨"a.tmp", "x", true⟩ (fun _ => none) ["a.tmp"]
     (fun p n => p = n) (by decide) rfl (by decide),
   (claim4_ignore_gates_creation honestServer c2w [] false false
       false).2 c2f c2map ["a.py"] (fun p n => p = n) []
     (fun _ _ => false) true "X" (by decide)⟩

def c6run : RunResult GState :=
  sync_files_to_gists honestServer ⟨0, []⟩ ['u', 'q'] (fun _ => none) []
    (fun _ _ => false) true false true false
    [⟨"u1.py", "c1", true⟩, ⟨"u2.py", "c2", true⟩, ⟨"u3.py", "c3", true⟩]

theorem sync_loop_cons_step {σ : Type} (server : Server σ)
    (existing : String → Option String) (excl : List String)
    (pm : String → String → Bool) (cn dr it sd : Bool) (f : SFile)
    (rest : List SFile) (w : σ) (keys : List Char) (evs : List Event)
    (w' : σ) (keys' : List Char)
    (hstep : sync_one server w keys existing excl pm cn dr it sd f
      = ⟨evs, w', keys', Status.normal, true⟩) :
    sync_loop server existing excl pm cn dr it sd (f :: rest) w keys
      = ⟨evs ++ (sync_loop server existing excl pm cn dr it sd rest w'
            keys').events,
         (sync_loop server existing excl pm cn dr it sd rest w'
           keys').world,
         (sync_loop server existing excl pm cn dr it sd rest w'
           keys').status⟩ := by
  simp [sync_loop, hstep]

/-- Auxiliary for prefix reasoning about the loop: the intermediate
loop state (server world and remaining keystrokes) after processing a
prefix of the file list, or `none` when the loop stopped inside the
prefix (quit, `sys.exit`, raised exception or exhausted keystrokes). -/
def sync_loop_mid {σ : Type} (server : Server σ)
    (existing : String → Option String) (excluded : List String)
    (pm : String → String → Bool)
    (create_new dry_run interactive show_diffs : Bool) :
    List SFile → σ → List Char → Option (σ × List Char)
  | [], w, keys => some (w, keys)
  | f :: rest, w, keys =>
    let s := sync_one server w keys existing excluded pm create_new
      dry_run interactive show_diffs f
    match s.status with
    | Status.normal =>
      if s.cont then
        sync_loop_mid server existing excluded pm create_new dry_run
          interactive show_diffs rest s.world s.keys
      else none
    | _ => none

theorem sync_one_quit {σ : Type} (server : Server σ) (w : σ)
    (ktail : List Char) (existing : String → Option String)
    (excl : List String) (pm : String → String → Bool) (dr sd : Bool)
    (f : SFile) (hf : f.isFile = true) (hm : existing f.name = none)
    (hs : should_sync_file pm f.name excl = true) :
    sync_one server w ('q' :: ktail) existing excl pm true dr true sd f
      = ⟨[Event.promptFile f.name], w, ktail, Status.normal, false⟩ := by
  simp [sync_one, interactive_sync, hf, hm, hs]

theorem sync_loop_cons_quit {σ : Type} (server : Server σ)
    (existing : String → Option String) (excl : List String)
    (pm : String → String → Bool) (cn dr it sd : Bool) (f : SFile)
    (rest : List SFile) (w : σ) (keys : List Char) (evs : List Event)
    (w' : σ) (keys' : List Char)
    (hstep : sync_one server w keys existing excl pm cn dr it sd f
      = ⟨evs, w', keys', Status.normal, false⟩) :
    sync_loop server existing excl pm cn dr it sd (f :: rest) w keys
      = ⟨evs ++ [Event.printQuitting], w', Status.normal⟩ := by
  simp [sync_loop, hstep]

theorem quit_stops_loop {σ : Type} (server : Server σ)
    (existing : String → Option String) (excl : List String)
    (pm : String → String → Bool) (dr sd : Bool) (pre : List SFile) :
    ∀ (f : SFile) (rest : List SFile) (w : σ) (keys : List Char)
      (w1 : σ) (ktail : List Char),
    sync_loop_mid server existing excl pm true dr true sd pre w keys
      = some (w1, 'q' :: ktail) →
    f.isFile = true → existing f.name = none →
    should_sync_file pm f.name excl = true →
    sync_loop server existing excl pm true dr true sd (pre ++ f :: rest)
        w keys
      = ⟨(sync_loop server existing excl pm true dr true sd pre w
            keys).events
          ++ [Event.promptFile f.name, Event.printQuitting], w1,
         Status.normal⟩ := by
  induction pre with
  | nil =>
    intro f rest w keys w1 ktail hmid hf hm hs
    have hmid' : w = w1 ∧ keys = 'q' :: ktail := by
      simpa [sync_loop_mid] using hmid
    obtain ⟨hw, hk⟩ := hmid'
    subst hk
    rw [List.nil_append,
      sync_loop_cons_quit server existing excl pm true dr true sd f rest
        w ('q' :: ktail) _ _ _
        (sync_one_quit server w ktail existing excl pm dr sd f hf hm hs)]
    simp [sync_loop, hw]
  | cons p pre' ih =>
    intro f rest w keys w1 ktail hmid hf hm hs
    rcases hstep : sync_one server w keys existing excl pm true dr true
        sd p with ⟨evs, w', keys', st, co⟩
    simp only [sync_loop_mid, hstep] at hmid
    cases st with
    | normal =>
      cases co with
      | false => simp at hmid
      | true =>
        simp only [if_true] at hmid
        rw [List.cons_append,
          sync_loop_cons_step server existing excl pm true dr true sd p
            (pre' ++ f :: rest) w keys evs w' keys' hstep,
          sync_loop_cons_step server existing excl pm true dr true sd p
            pre' w keys evs w' keys' hstep,
          ih f rest w' keys' w1 ktail hmid hf hm hs]
        simp
    | exited c => simp at hmid
    | raised s' => simp at hmid
    | stuck => simp at hmid

/-- C6: in interactive mode with `create_new`, choosing quit on any
unmapped file — after an arbitrary already-processed prefix of files
(carrying arbitrary prior decisions) and with arbitrary files remaining
— stops the run immediately: the trace is exactly the prefix's trace
(every decision already made preserved, and the server state is the
post-prefix state, untouched by the quit) plus the prompt for the
quitting file and "Quitting...", with nothing for any remaining file
and a normal exit.  Concretely, for three unmapped files with upload
chosen on the first and quit on the second, exactly one create call is
made and the third file is untouched. -/
theorem claim6_interactive_quit :
    (∀ (σ : Type) (server : Server σ)
      (existing : String → Option String) (excl : List String)
      (pm : String → String → Bool) (dr sd : Bool) (pre : List SFile)
      (f : SFile) (rest : List SFile) (w : σ) (keys : List Char)
      (w1 : σ) (ktail : List Char),
      sync_loop_mid server existing excl pm true dr true sd pre w keys
        = some (w1, 'q' :: ktail) →
      f.isFile = true → existing f.name = none →
      should_sync_file pm f.name excl = true →
      sync_files_to_gists server w keys existing excl pm true dr true sd
          (pre ++ f :: rest)
        = ⟨(sync_files_to_gists server w keys existing excl pm true dr
              true sd pre).events
            ++ [Event.promptFile f.name, Event.printQuitting], w1,
           Status.normal⟩)
    ∧ c6run = ⟨[Event.promptFile "u1.py", Event.printCreating "u1.py",
        Event.callPost "u1.py" "c1",
        Event.printDone "https://gist.github.com/g0",
        Event.saveMapping "u1.py" "g0" "https://gist.github.com/g0",
        Event.promptFile "u2.py", Event.printQuitting],
       ⟨1, [("g0", ⟨"c1", "https://gist.github.com/g0"⟩)]⟩, Status.normal⟩
    ∧ c6run.events.countP isPost = 1 := by
  refine ⟨?_, by decide, by decide⟩
  intro σ server existing excl pm dr sd pre f rest w keys w1 ktail hmid
    hf hm hs
  have hq := quit_stops_loop server existing excl pm dr sd pre f rest w
    keys w1 ktail hmid hf hm hs
  simpa [sync_files_to_gists] using hq

def c6pre : List SFile := [⟨"u1.py", "c1", true⟩]

def c6w1 : GState := ⟨1, [("g0", ⟨"c1", "https://gist.github.com/g0"⟩)]⟩

/-- C6 witness: the universal part applied with a one-file prefix whose
decision was upload, quit on the second of three files. -/
theorem claim6_interactive_quit_witness :
    sync_loop_mid honestServer (fun _ => none) [] (fun _ _ => false) true
      false true false c6pre (⟨0, []⟩ : GState) ['u', 'q']
      = some (c6w1, 'q' :: [])
    ∧ sync_files_to_gists honestServer ⟨0, []⟩ ['u', 'q'] (fun _ => none)
        [] (fun _ _ => false) true false true false
        (c6pre ++ (⟨"u2.py", "c2", true⟩ : SFile)
          :: [⟨"u3.py", "c3", true⟩])
      = ⟨(sync_files_to_gists honestServer ⟨0, []⟩ ['u', 'q']
            (fun _ => none) [] (fun _ _ => false) true false true false
            c6pre).events
          ++ [Event.promptFile "u2.py", Event.printQuitting], c6w1,
         Status.normal⟩ :=
  ⟨by decide,
   claim6_interactive_quit.1 GState honestServer (fun _ => none) []
     (fun _ _ => false) false false c6pre ⟨"u2.py", "c2", true⟩
     [⟨"u3.py", "c3", true⟩] ⟨0, []⟩ ['u', 'q'] c6w1 [] (by decide)
     (by decide) rfl (by decide)⟩

/-- C5: an HTTP error on a mutation call.  For an update of a mapped
file (first part) and a creation of an unmapped file (second part): a
403 terminates the whole run immediately with the remediation message
and exit status 1, and a non-403 error propagates as a raised
exception — in both cases no later file is processed (the resulting
trace is exactly the failing file's events). -/
theorem claim5_http_error {σ : Type} (server : Server σ)
    (keys : List Char) (rest : List SFile) (excl : List String)
    (pm : String → String → Bool) (inter : Bool) (s : Nat) :
    (∀ (w w2 : σ) (f : SFile) (existing : String → Option String)
      (cn : Bool) (gid : String),
      f.isFile = true → existing f.name = some gid →
      server.mutate w (MCall.patch gid f.name f.content)
        = (MutResp.httpErr s, w2) →
      sync_files_to_gists server w keys existing excl pm cn false inter
          false (f :: rest)
        = ⟨[Event.printUpdating f.name,
            Event.callPatch gid f.name f.content, Event.printFailed]
            ++ (if s = 403 then [Event.printPermissionHelp] else []),
           w2, if s = 403 then Status.exited 1 else Status.raised s⟩)
    ∧ (∀ (w w2 : σ) (f : SFile) (existing : String → Option String),
      f.isFile = true → existing f.name = none →
      should_sync_file pm f.name excl = true →
      server.mutate w (MCall.post f.name f.content)
        = (MutResp.httpErr s, w2) →
      sync_files_to_gists server w keys existing excl pm true false false
          false (f :: rest)
        = ⟨[Event.printCreating f.name,
            Event.callPost f.name f.content, Event.printFailed]
            ++ (if s = 403 then [Event.printPermissionHelp] else []),
           w2, if s = 403 then Status.exited 1 else Status.raised s⟩) := by
  constructor
  · intro w w2 f existing cn gid hf hm hsrv
    by_cases h4 : s = 403
    · simp [sync_files_to_gists, sync_loop, sync_one, sync_to_gist, hf, hm,
        hsrv, h4]
    · simp [sync_files_to_gists, sync_loop, sync_one, sync_to_gist, hf, hm,
        hsrv, h4]
  · intro w w2 f existing hf hm hsync hsrv
    by_cases h4 : s = 403
    · simp [sync_files_to_gists, sync_loop, sync_one, sync_to_gist, hf, hm,
        hsync, hsrv, h4]
    · simp [sync_files_to_gists, sync_loop, sync_one, sync_to_gist, hf, hm,
        hsync, hsrv, h4]

def c5server : Server Unit :=
  ⟨fun w _ => (GetResp.err, w), fun w _ => (MutResp.httpErr 403, w)⟩

/-- C5 witness: a 403 on the update of the first of two files halts the
run with exit status 1 before the second file. -/
theorem claim5_http_error_witness :
    c5server.mutate () (MCall.patch "X" c2f.name c2f.content)
      = (MutResp.httpErr 403, ())
    ∧ sync_files_to_gists c5server () [] c2map [] (fun _ _ => false) false
        false false false (c2f :: [⟨"b.py", "d", true⟩])
      = ⟨[Event.printUpdating c2f.name,
          Event.callPatch "X" c2f.name c2f.content, Event.printFailed]
          ++ (if (403 : Nat) = 403 then [Event.printPermissionHelp]
              else []),
         (), if (403 : Nat) = 403 then Status.exited 1
             else Status.raised 403⟩ :=
  ⟨rfl,
   (claim5_http_error c5server [] [⟨"b.py", "d", true⟩] []
       (fun _ _ => false) false 403).1 () () c2f c2map false "X"
     (by decide) (by decide) rfl⟩

theorem sync_to_gist_update_has_patch {σ : Type} (server : Server σ)
    (w : σ) (f : SFile) (gid : String) :
    Event.callPatch gid f.name f.content
      ∈ (sync_to_gist server w f (some gid) false).events := by
  rcases hsm : server.mutate w (MCall.patch gid f.name f.content)
    with ⟨mr, w3⟩
  cases mr with
  | ok rid url => simp [sync_to_gist, hsm]
  | httpErr s =>
    by_cases h4 : s = 403
    · simp [sync_to_gist, hsm, h4]
    · simp [sync_to_gist, hsm, h4]

/-- C7: a mapped file under diff mode whose fetched remote content
differs from the local content gets a unified diff displayed (remote as
the "from" side, local as the "to" side) and its mapping persisted —
for either value of `dry_run`. -/
theorem claim7_diff_and_persist {σ : Type} (server : Server σ)
    (w w2 : σ) (keys : List Char) (f : SFile)
    (existing : String → Option String) (excl : List String)
    (pm : String → String → Bool) (cn dr inter : Bool)
    (gid rid url rc : String)
    (hf : f.isFile = true) (hm : existing f.name = some gid)
    (hget : server.get w gid = (GetResp.ok rc rid url, w2))
    (hne : f.content ≠ rc) :
    Event.printDiff f.name rc f.content ∈
      (sync_files_to_gists server w keys existing excl pm cn dr inter true
        [f]).events
    ∧ Event.saveMapping f.name rid url ∈
        (sync_files_to_gists server w keys existing excl pm cn dr inter
          true [f]).events := by
  have hd : show_diff server w f gid
      = ⟨[Event.callGet gid, Event.saveMapping f.name rid url,
          Event.printDiff f.name rc f.content], w2, true⟩ := by
    simp [show_diff, hget, hne]
  cases dr with
  | true =>
    simp [sync_files_to_gists, sync_loop, sync_one, hf, hm, hd,
      sync_to_gist]
  | false =>
    rcases hsm : server.mutate w2 (MCall.patch gid f.name f.content)
      with ⟨mr, w3⟩
    cases mr with
    | ok prid purl =>
      simp [sync_files_to_gists, sync_loop, sync_one, hf, hm, hd,
        sync_to_gist, hsm]
    | httpErr s =>
      by_cases h4 : s = 403
      · simp [sync_files_to_gists, sync_loop, sync_one, hf, hm, hd,
          sync_to_gist, hsm, h4]
      · simp [sync_files_to_gists, sync_loop, sync_one, hf, hm, hd,
          sync_to_gist, hsm, h4]

def c7w : GState := ⟨0, [("X", ⟨"old", "u"⟩)]⟩

def c7f : SFile := ⟨"a.py", "new", true⟩

/-- C7 witness: a changed mapped file under diff mode with `dry_run`
set still records the diff display and the mapping save. -/
theorem claim7_diff_and_persist_witness :
    c7f.content ≠ "old"
    ∧ (Event.printDiff c7f.name "old" c7f.content ∈
        (sync_files_to_gists honestServer c7w [] c2map []
          (fun _ _ => false) false true false true [c7f]).events
      ∧ Event.saveMapping c7f.name "X" "u" ∈
          (sync_files_to_gists honestServer c7w [] c2map []
            (fun _ _ => false) false true false true [c7f]).events) :=
  ⟨by decide,
   claim7_diff_and_persist honestServer c7w c7w [] c7f c2map []
     (fun _ _ => false) false true false "X" "X" "u" "old" (by decide)
     (by decide) (by decide) (by decide)⟩

/-- C10: when the fetch in diff mode fails with a request error, the
error is reported, the file is treated as changed, and the update for
that file is still attempted (a PATCH call is issued). -/
theorem claim10_fetch_error_proceeds {σ : Type} (server : Server σ)
    (w w2 : σ) (keys : List Char) (f : SFile)
    (existing : String → Option String) (excl : List String)
    (pm : String → String → Bool) (cn inter : Bool) (gid : String)
    (hf : f.isFile = true) (hm : existing f.name = some gid)
    (hget : server.get w gid = (GetResp.err, w2)) :
    Event.printFetchError f.name ∈
      (sync_files_to_gists server w keys existing excl pm cn false inter
        true [f]).events
    ∧ Event.callPatch gid f.name f.content ∈
        (sync_files_to_gists server w keys existing excl pm cn false inter
          true [f]).events := by
  have hd : show_diff server w f gid
      = ⟨[Event.callGet gid, Event.printFetchError f.name], w2, true⟩ := by
    simp [show_diff, hget]
  have hp := sync_to_gist_update_has_patch server w2 f gid
  constructor
  · rcases hst : (sync_to_gist server w2 f (some gid) false).status
      with _ | c | s | _ <;>
      simp [sync_files_to_gists, sync_loop, sync_one, hf, hm, hd, hst]
  · rcases hst : (sync_to_gist server w2 f (some gid) false).status
      with _ | c | s | _ <;>
      simp [sync_files_to_gists, sync_loop, sync_one, hf, hm, hd, hst, hp]

def c10server : Server Unit :=
  ⟨fun w _ => (GetResp.err, w), fun w _ => (MutResp.ok "X" "u", w)⟩

/-- C10 witness: a scripted server whose GET always fails. -/
theorem claim10_fetch_error_proceeds_witness :
    c10server.get () "X" = (GetResp.err, ())
    ∧ (Event.printFetchError c2f.name ∈
        (sync_files_to_gists c10server () [] c2map [] (fun _ _ => false)
          false false false true [c2f]).events
      ∧ Event.callPatch "X" c2f.name c2f.content ∈
          (sync_files_to_gists c10server () [] c2map []
            (fun _ _ => false) false false false true [c2f]).events) :=
  ⟨rfl,
   claim10_fetch_error_proceeds c10server () () [] c2f c2map []
     (fun _ _ => false) false false "X" (by decide) (by decide) rfl⟩

/-- C9: `save_gist_mapping` on an existing config document keeps the
version tag, sets `last_sync` to the given timestamp, sets exactly the
entry for the given file name to the new id and url, and leaves every
other file's entry unchanged. -/
theorem claim9_save_mapping_frame (m : MappingData)
    (name gid gurl now : String) :
    (∀ v, m.version = some v →
      (save_gist_mapping (some m) name gid gurl now).version = some v)
    ∧ (save_gist_mapping (some m) name gid gurl now).last_sync = some now
    ∧ alookup (save_gist_mapping (some m) name gid gurl now).files name
        = some ⟨gid, gurl⟩
    ∧ (∀ n, n ≠ name →
      alookup (save_gist_mapping (some m) name gid gurl now).files n
        = alookup m.files n) := by
  refine ⟨?_, rfl, ?_, ?_⟩
  · intro v hv
    simp [save_gist_mapping, hv]
  · simp [save_gist_mapping, alookup_aset_self]
  · intro n hn
    simp [save_gist_mapping, alookup_aset_other _ _ _ _ hn]

def c9m : MappingData :=
  ⟨some 1, some "t0", [("a.py", ⟨"X", "u"⟩), ("b.py", ⟨"Y", "v"⟩)]⟩

/-- C9 witness: updating `b.py` in a two-entry document preserves the
version tag and the `a.py` entry. -/
theorem claim9_save_mapping_frame_witness :
    c9m.version = some 1
    ∧ (save_gist_mapping (some c9m) "b.py" "Z" "w" "t1").version = some 1
    ∧ (save_gist_mapping (some c9m) "b.py" "Z" "w" "t1").last_sync
        = some "t1"
    ∧ alookup (save_gist_mapping (some c9m) "b.py" "Z" "w" "t1").files
        "a.py" = alookup c9m.files "a.py" :=
  ⟨rfl,
   (claim9_save_mapping_frame c9m "b.py" "Z" "w" "t1").1 1 rfl,
   (claim9_save_mapping_frame c9m "b.py" "Z" "w" "t1").2.1,
   (claim9_save_mapping_frame c9m "b.py" "Z" "w" "t1").2.2.2 "a.py"
     (by decide)⟩

/-! ### Idempotence machinery (C8): runs against the honest server -/

theorem honest_update_step (w : GState) (f : SFile) (i : String) (g : Gist)
    (hg : alookup w.gists i = some g) :
    sync_to_gist honestServer w f (some i) false
      = ⟨[Event.printUpdating f.name, Event.callPatch i f.name f.content,
          Event.printDone g.url, Event.saveMapping f.name i g.url],
         ⟨w.counter, aset w.gists i ⟨f.content, g.url⟩⟩, Status.normal⟩ := by
  simp [sync_to_gist, honestServer, hg]

theorem sync_one_skip {σ : Type} (server : Server σ) (w : σ)
    (keys : List Char) (existing : String → Option String)
    (excl : List String) (pm : String → String → Bool) (dr it sd : Bool)
    (f : SFile) (hf : f.isFile = true) (hm : existing f.name = none) :
    sync_one server w keys existing excl pm false dr it sd f
      = ⟨[Event.printSkipping f.name], w, keys, Status.normal, true⟩ := by
  simp [sync_one, hf, hm]

theorem sync_one_update_honest (w : GState) (keys : List Char)
    (existing : String → Option String) (excl : List String)
    (pm : String → String → Bool) (cn : Bool) (f : SFile) (i : String)
    (g : Gist) (hf : f.isFile = true) (hm : existing f.name = some i)
    (hg : alookup w.gists i = some g) :
    sync_one honestServer w keys existing excl pm cn false false false f
      = ⟨[Event.printUpdating f.name, Event.callPatch i f.name f.content,
          Event.printDone g.url, Event.saveMapping f.name i g.url],
         ⟨w.counter, aset w.gists i ⟨f.content, g.url⟩⟩, keys,
         Status.normal, true⟩ := by
  simp [sync_one, hf, hm, honest_update_step w f i g hg]

theorem sync_one_diff_nochanges_honest (w : GState) (keys : List Char)
    (existing : String → Option String) (excl : List String)
    (pm : String → String → Bool) (cn : Bool) (f : SFile) (i : String)
    (g : Gist) (hf : f.isFile = true) (hm : existing f.name = some i)
    (hg : alookup w.gists i = some g) (hgc : g.content = f.content) :
    sync_one honestServer w keys existing excl pm cn false false true f
      = ⟨[Event.callGet i, Event.saveMapping f.name i g.url,
          Event.printNoChanges f.name], w, keys, Status.normal, true⟩ := by
  simp [sync_one, show_diff, honestServer, hf, hm, hg, hgc]

theorem run1_post (existing : String → Option String)
    (pm : String → String → Bool) (files : List SFile) :
    ∀ (w : GState) (keys : List Char),
    (∀ f ∈ files, f.isFile = true) →
    (files.map SFile.name).Nodup →
    (∀ f g, f ∈ files → g ∈ files → ∀ i, existing f.name = some i →
      existing g.name = some i → f.name = g.name) →
    (∀ f ∈ files, ∀ i, existing f.name = some i →
      (alookup w.gists i).isSome = true) →
    (sync_loop honestServer existing [] pm false false false false files w
        keys).status = Status.normal
    ∧ (∀ f ∈ files, ∀ i, existing f.name = some i →
      gcontent (sync_loop honestServer existing [] pm false false false
        false files w keys).world i = some f.content)
    ∧ (∀ j, (∀ f ∈ files, existing f.name ≠ some j) →
      alookup (sync_loop honestServer existing [] pm false false false
        false files w keys).world.gists j = alookup w.gists j)
    ∧ (∀ j, (alookup (sync_loop honestServer existing [] pm false false
        false false files w keys).world.gists j).isSome
      = (alookup w.gists j).isSome) := by
  induction files with
  | nil =>
    intro w keys h1 h2 h3 h4
    simp [sync_loop]
  | cons f rest ih =>
    intro w keys h1 h2 h3 h4
    have hf : f.isFile = true := h1 f (List.mem_cons_self f rest)
    have h1r : ∀ g ∈ rest, g.isFile = true :=
      fun g hg => h1 g (List.mem_cons_of_mem f hg)
    have h2' := h2
    rw [List.map_cons, List.nodup_cons] at h2'
    have h3r : ∀ a b, a ∈ rest → b ∈ rest → ∀ i,
        existing a.name = some i → existing b.name = some i →
        a.name = b.name :=
      fun a b ha hb i hai hbi =>
        h3 a b (List.mem_cons_of_mem f ha) (List.mem_cons_of_mem f hb) i
          hai hbi
    cases hm : existing f.name with
    | none =>
      have hstep := sync_one_skip honestServer w keys existing [] pm false
        false false f hf hm
      rw [sync_loop_cons_step honestServer existing [] pm false false
        false false f rest w keys _ _ _ hstep]
      have h4r : ∀ g ∈ rest, ∀ i, existing g.name = some i →
          (alookup w.gists i).isSome = true :=
        fun g hg => h4 g (List.mem_cons_of_mem f hg)
      obtain ⟨ha, hb, hc, hd⟩ := ih w keys h1r h2'.2 h3r h4r
      refine ⟨ha, ?_, ?_, hd⟩
      · intro fb hfb j hj
        rcases List.mem_cons.mp hfb with hfb | hfb
        · subst hfb
          rw [hm] at hj
          exact absurd hj (by simp)
        · exact hb fb hfb j hj
      · intro j hno
        exact hc j (fun g hg => hno g (List.mem_cons_of_mem f hg))
    | some i =>
      obtain ⟨g, hg⟩ := Option.isSome_iff_exists.mp
        (h4 f (List.mem_cons_self f rest) i hm)
      have hstep := sync_one_update_honest w keys existing [] pm false f i
        g hf hm hg
      rw [sync_loop_cons_step honestServer existing [] pm false false
        false false f rest w keys _ _ _ hstep]
      have hwg : (⟨w.counter, aset w.gists i ⟨f.content, g.url⟩⟩ :
          GState).gists = aset w.gists i ⟨f.content, g.url⟩ := rfl
      have h4r : ∀ fb ∈ rest, ∀ j, existing fb.name = some j →
          (alookup (aset w.gists i ⟨f.content, g.url⟩) j).isSome = true :=
        fun fb hfb j hj => by
          rw [alookup_aset_isSome w.gists i ⟨f.content, g.url⟩ g hg j]
          exact h4 fb (List.mem_cons_of_mem f hfb) j hj
      obtain ⟨ha, hb, hc, hd⟩ := ih ⟨w.counter,
        aset w.gists i ⟨f.content, g.url⟩⟩ keys h1r h2'.2 h3r h4r
      have hnof : ∀ fb ∈ rest, existing fb.name ≠ some i := by
        intro fb hfb hcontra
        have hn := h3 f fb (List.mem_cons_self f rest)
          (List.mem_cons_of_mem f hfb) i hm hcontra
        exact h2'.1 (hn ▸ List.mem_map_of_mem SFile.name hfb)
      refine ⟨ha, ?_, ?_, ?_⟩
      · intro fb hfb j hj
        rcases List.mem_cons.mp hfb with hfb | hfb
        · subst hfb
          rw [hm] at hj
          have hij : i = j := by
            injection hj
          subst hij
          unfold gcontent
          rw [hc i hnof, hwg, alookup_aset_self]
          rfl
        · exact hb fb hfb j hj
      · intro j hno
        have hij : i ≠ j := by
          intro hcontra
          exact hno f (List.mem_cons_self f rest) (hcontra ▸ hm)
        rw [hc j (fun fb hfb => hno fb (List.mem_cons_of_mem f hfb)), hwg,
          alookup_aset_other w.gists i ⟨f.content, g.url⟩ j
            (fun hcontra => hij hcontra.symm)]
      · intro j
        rw [hd j, hwg, alookup_aset_isSome w.gists i ⟨f.content, g.url⟩ g
          hg j]

theorem run2_diff (existing : String → Option String)
    (pm : String → String → Bool) (files : List SFile) :
    ∀ (w : GState) (keys : List Char),
    (∀ f ∈ files, f.isFile = true) →
    (∀ f ∈ files, ∀ i, existing f.name = some i →
      gcontent w i = some f.content) →
    (sync_loop honestServer existing [] pm false false false true files w
        keys).status = Status.normal
    ∧ (sync_loop honestServer existing [] pm false false false true files
        w keys).world = w
    ∧ (∀ f ∈ files, ∀ i, existing f.name = some i →
      Event.printNoChanges f.name ∈ (sync_loop honestServer existing []
        pm false false false true files w keys).events)
    ∧ (∀ e ∈ (sync_loop honestServer existing [] pm false false false
        true files w keys).events, isPatch e = false) := by
  induction files with
  | nil =>
    intro w keys h1 h2
    simp [sync_loop]
  | cons f rest ih =>
    intro w keys h1 h2
    have hf : f.isFile = true := h1 f (List.mem_cons_self f rest)
    have h1r : ∀ g ∈ rest, g.isFile = true :=
      fun g hg => h1 g (List.mem_cons_of_mem f hg)
    have h2r : ∀ g ∈ rest, ∀ i, existing g.name = some i →
        gcontent w i = some g.content :=
      fun g hg => h2 g (List.mem_cons_of_mem f hg)
    cases hm : existing f.name with
    | none =>
      have hstep := sync_one_skip honestServer w keys existing [] pm false
        false true f hf hm
      rw [sync_loop_cons_step honestServer existing [] pm false false
        false true f rest w keys _ _ _ hstep]
      obtain ⟨ha, hb, hc, hd⟩ := ih w keys h1r h2r
      refine ⟨ha, hb, ?_, ?_⟩
      · intro fb hfb j hj
        rcases List.mem_cons.mp hfb with hfb | hfb
        · subst hfb
          rw [hm] at hj
          exact absurd hj (by simp)
        · exact List.mem_append_right _ (hc fb hfb j hj)
      · intro e he
        rcases List.mem_append.mp he with he | he
        · rcases List.mem_singleton.mp he with rfl
          rfl
        · exact hd e he
    | some i =>
      have hgc := h2 f (List.mem_cons_self f rest) i hm
      unfold gcontent at hgc
      rcases hgl : alookup w.gists i with _ | g
      · rw [hgl] at hgc
        exact absurd hgc (by simp)
      · rw [hgl] at hgc
        have hgcc : g.content = f.content := by
          simpa using hgc
        have hstep := sync_one_diff_nochanges_honest w keys existing [] pm
          false f i g hf hm hgl hgcc
        rw [sync_loop_cons_step honestServer existing [] pm false false
          false true f rest w keys _ _ _ hstep]
        obtain ⟨ha, hb, hc, hd⟩ := ih w keys h1r h2r
        refine ⟨ha, hb, ?_, ?_⟩
        · intro fb hfb j hj
          rcases List.mem_cons.mp hfb with hfb | hfb
          · subst hfb
            exact List.mem_append_left _ (by simp)
          · exact List.mem_append_right _ (hc fb hfb j hj)
        · intro e he
          rcases List.mem_append.mp he with he | he
          · rcases List.mem_cons.mp he with rfl | he
            · rfl
            rcases List.mem_cons.mp he with rfl | he
            · rfl
            rcases List.mem_singleton.mp he with rfl
            rfl
          · exact hd e he

theorem run2_upd (existing : String → Option String)
    (pm : String → String → Bool) (files : List SFile) :
    ∀ (w : GState) (keys : List Char),
    (∀ f ∈ files, f.isFile = true) →
    (∀ f ∈ files, ∀ i, existing f.name = some i →
      gcontent w i = some f.content) →
    (∀ j, gcontent (sync_loop honestServer existing [] pm false false
      false false files w keys).world j = gcontent w j)
    ∧ (∀ e ∈ (sync_loop honestServer existing [] pm false false false
        false files w keys).events, ∀ i n c,
        e = Event.callPatch i n c → gcontent w i = some c) := by
  induction files with
  | nil =>
    intro w keys h1 h2
    simp [sync_loop]
  | cons f rest ih =>
    intro w keys h1 h2
    have hf : f.isFile = true := h1 f (List.mem_cons_self f rest)
    have h1r : ∀ g ∈ rest, g.isFile = true :=
      fun g hg => h1 g (List.mem_cons_of_mem f hg)
    have h2r : ∀ g ∈ rest, ∀ i, existing g.name = some i →
        gcontent w i = some g.content :=
      fun g hg => h2 g (List.mem_cons_of_mem f hg)
    cases hm : existing f.name with
    | none =>
      have hstep := sync_one_skip honestServer w keys existing [] pm false
        false false f hf hm
      rw [sync_loop_cons_step honestServer existing [] pm false false
        false false f rest w keys _ _ _ hstep]
      obtain ⟨ha, hb⟩ := ih w keys h1r h2r
      refine ⟨ha, ?_⟩
      intro e he j n c hec
      rcases List.mem_append.mp he with he | he
      · rcases List.mem_singleton.mp he with rfl
        exact absurd hec (by simp)
      · exact hb e he j n c hec
    | some i =>
      have hgc := h2 f (List.mem_cons_self f rest) i hm
      unfold gcontent at hgc
      rcases hgl : alookup w.gists i with _ | g
      · rw [hgl] at hgc
        exact absurd hgc (by simp)
      · rw [hgl] at hgc
        have hgcc : g.content = f.content := by
          simpa using hgc
        have hstep := sync_one_update_honest w keys existing [] pm false f
          i g hf hm hgl
        rw [sync_loop_cons_step honestServer existing [] pm false false
          false false f rest w keys _ _ _ hstep]
        have hsame : (⟨f.content, g.url⟩ : Gist) = g := by
          cases g with
          | mk gc gu =>
            simp at hgcc
            rw [hgcc]
        have hws : ∀ j, alookup (⟨w.counter,
            aset w.gists i ⟨f.content, g.url⟩⟩ : GState).gists j
            = alookup w.gists j := by
          intro j
          show alookup (aset w.gists i ⟨f.content, g.url⟩) j = _
          rw [hsame]
          exact alookup_aset_eq_of_lookup w.gists i g hgl j
        have hgeq : ∀ j, gcontent (⟨w.counter,
            aset w.gists i ⟨f.content, g.url⟩⟩ : GState) j
            = gcontent w j := by
          intro j
          unfold gcontent
          rw [hws j]
        have h2w : ∀ fb ∈ rest, ∀ j, existing fb.name = some j →
            gcontent (⟨w.counter, aset w.gists i ⟨f.content, g.url⟩⟩ :
              GState) j = some fb.content :=
          fun fb hfb j hj => (hgeq j).trans (h2r fb hfb j hj)
        obtain ⟨ha, hb⟩ := ih ⟨w.counter,
          aset w.gists i ⟨f.content, g.url⟩⟩ keys h1r h2w
        refine ⟨?_, ?_⟩
        · intro j
          rw [ha j, hgeq j]
        · intro e he j n c hec
          subst hec
          rcases List.mem_append.mp he with he | he
          · have he' : j = i ∧ n = f.name ∧ c = f.content := by
              simpa using he
            rcases he' with ⟨rfl, rfl, rfl⟩
            unfold gcontent
            rw [hgl]
            simp [hgcc]
          · have := hb _ he j n c rfl
            rw [hgeq j] at this
            exact this

/-- C8: idempotence against the honest server.  Running the reconciler
(no creation, not interactive, `dry_run` false) over files with
distinct names, injectively mapped ids and all mapped gists present,
completes normally; re-running it from the resulting remote state
either (diff mode) reports "no changes" for every mapped file and
issues no PATCH at all, or (non-diff mode) issues only PATCH calls
whose content equals the content already stored remotely. -/
theorem claim8_idempotent (files : List SFile)
    (existing : String → Option String) (w : GState) (keys : List Char)
    (excl : List String) (pm : String → String → Bool)
    (hfile : ∀ f ∈ files, f.isFile = true)
    (hnodup : (files.map SFile.name).Nodup)
    (hinj : ∀ f ∈ files, ∀ g ∈ files,
      existing f.name = existing g.name →
      (existing f.name).isSome = true → f.name = g.name)
    (hex : ∀ f ∈ files,
      ((existing f.name).bind (fun i => alookup w.gists i)).isSome
        = (existing f.name).isSome) :
    (sync_files_to_gists honestServer w keys existing excl pm false false
      false false files).status = Status.normal
    ∧ (sync_files_to_gists honestServer
        (sync_files_to_gists honestServer w keys existing excl pm false
          false false false files).world keys existing excl pm false false
        false true files).status = Status.normal
    ∧ (∀ f ∈ files, (existing f.name).isSome = true →
      Event.printNoChanges f.name ∈
        (sync_files_to_gists honestServer
          (sync_files_to_gists honestServer w keys existing excl pm false
            false false false files).world keys existing excl pm false
          false false true files).events)
    ∧ (∀ e ∈ (sync_files_to_gists honestServer
        (sync_files_to_gists honestServer w keys existing excl pm false
          false false false files).world keys existing excl pm false false
        false true files).events, isPatch e = false)
    ∧ (∀ e ∈ (sync_files_to_gists honestServer
        (sync_files_to_gists honestServer w keys existing excl pm false
          false false false files).world keys existing excl pm false false
        false false files).events, ∀ i n c, e = Event.callPatch i n c →
      gcontent (sync_files_to_gists honestServer w keys existing excl pm
        false false false false files).world i = some c) := by
  have hunf : ∀ (w0 : GState) (sd : Bool),
      sync_files_to_gists honestServer w0 keys existing excl pm false
        false false sd files
      = sync_loop honestServer existing [] pm false false false sd files
          w0 keys := by
    intro w0 sd
    simp [sync_files_to_gists]
  have h3 : ∀ f g, f ∈ files → g ∈ files → ∀ i,
      existing f.name = some i → existing g.name = some i →
      f.name = g.name := by
    intro f g hfm hgm i hfi hgi
    exact hinj f hfm g hgm (hfi.trans hgi.symm) (by rw [hfi]; rfl)
  have h4 : ∀ f ∈ files, ∀ i, existing f.name = some i →
      (alookup w.gists i).isSome = true := by
    intro f hfm i hi
    have hx := hex f hfm
    rw [hi] at hx
    simpa using hx
  obtain ⟨ha, hb, hc, hd⟩ := run1_post existing pm files w keys hfile
    hnodup h3 h4
  obtain ⟨hda, hdb, hdc, hdd⟩ := run2_diff existing pm files
    (sync_loop honestServer existing [] pm false false false false files
      w keys).world keys hfile hb
  obtain ⟨hua, hub⟩ := run2_upd existing pm files
    (sync_loop honestServer existing [] pm false false false false files
      w keys).world keys hfile hb
  simp only [hunf]
  refine ⟨ha, hda, ?_, hdd, hub⟩
  intro f hfm hs
  obtain ⟨i, hi⟩ := Option.isSome_iff_exists.mp hs
  exact hdc f hfm i hi

/-- C8 witness: one mapped file, the gist holding stale content. -/
theorem claim8_idempotent_witness :
    ((List.map SFile.name [c2f]).Nodup)
    ∧ (sync_files_to_gists honestServer c7w [] c2map []
        (fun _ _ => false) false false false false [c2f]).status
      = Status.normal :=
  ⟨by decide,
   (claim8_idempotent [c2f] c2map c7w [] [] (fun _ _ => false)
     (by decide) (by decide) (by decide) (by decide)).1⟩
